import Mathlib

/-!
# Verification of the openDuT Peer Messaging Broker core

Shallow embedding of the broker subsystem:
* `src/opendut-carl/src/persistence/mod.rs` — the `PersistenceError` model,
* `src/opendut-types/src/peer/configuration/parameter/value.rs` — `ParameterValue`,
* `src/opendut-carl/src/grpc/peer_messaging_broker.rs` — the gRPC façade,
* `src/opendut-util/src/settings.rs` — `load_config`.

Machine integers are modelled as `Nat` (with explicit `% 2^w` where overflow
matters); fallible Rust code returns `Except`/`Option`; a Rust `panic!` /
`unwrap()` failure is modelled as `Option.none` or an explicit `panicked` flag.
-/

deriving instance DecidableEq for Except

namespace Opendut

/-! ## UUIDs (model of the external `uuid` crate's 128-bit value) -/

/-- A 128-bit UUID, modelled as its numeric value (`< 2^128`). -/
structure Uuid where
  val : Nat
deriving DecidableEq, Repr

/-! ## Persistence error model — `src/opendut-carl/src/persistence/mod.rs` -/

/-- Rust `PersistenceOperation` from `persistence/mod.rs`: `Insert | Remove | Get | List`. -/
inductive PersistenceOperation where
  | Insert
  | Remove
  | Get
  | List
deriving DecidableEq, Repr

/-- Rust `verb` from `persistence/mod.rs`. -/
def PersistenceOperation.verb : PersistenceOperation → String
  | .Insert => "inserting"
  | .Remove => "removing"
  | .Get => "getting"
  | .List => "listing"

/-- The boxed `dyn Error` cause (`type Cause = Box<dyn Error + Send + Sync>`),
modelled by its display string. -/
abbrev Cause := String

/-- Rust `PersistenceError` from `persistence/mod.rs`:
`Custom { resource_name, operation, context_messages, id, source }` or
`DieselInternal { source }`. The `diesel::result::Error` source is modelled by
its display string. -/
inductive PersistenceError where
  | Custom (resource_name : String) (operation : PersistenceOperation)
      (context_messages : List String) (id : Option Uuid) (source : Option Cause)
  | DieselInternal (source : String)
deriving DecidableEq, Repr

/-- Rust `PersistenceError::new::<R>(id, operation, cause)`. The type argument `R`
only contributes `std::any::type_name::<R>()`, modelled by the string
`resource_name`. -/
def PersistenceError.new (resource_name : String) (id : Option Uuid)
    (operation : PersistenceOperation) (cause : Option Cause) : PersistenceError :=
  .Custom resource_name operation [] id cause

/-- Rust `PersistenceError::insert::<R>(id, cause)`. -/
def PersistenceError.insert (resource_name : String) (id : Uuid) (cause : Cause) : PersistenceError :=
  PersistenceError.new resource_name (some id) .Insert (some cause)

/-- Rust `PersistenceError::remove::<R>(id, cause)`. -/
def PersistenceError.remove (resource_name : String) (id : Uuid) (cause : Cause) : PersistenceError :=
  PersistenceError.new resource_name (some id) .Remove (some cause)

/-- Rust `PersistenceError::get::<R>(id, cause)`. -/
def PersistenceError.get (resource_name : String) (id : Uuid) (cause : Cause) : PersistenceError :=
  PersistenceError.new resource_name (some id) .Get (some cause)

/-- Rust `PersistenceError::list::<R>(cause)`. -/
def PersistenceError.list (resource_name : String) (cause : Cause) : PersistenceError :=
  PersistenceError.new resource_name none .List (some cause)

/-- Rust `PersistenceError::context(self, message)`. On the `Custom` variant the
message is pushed onto `context_messages`; on `DieselInternal` the source runs
`unimplemented!()`, i.e. it panics — modelled as `none`. -/
def PersistenceError.context : PersistenceError → String → Option PersistenceError
  | .Custom resource_name operation context_messages id source, message =>
      some (.Custom resource_name operation (context_messages ++ [message]) id source)
  | .DieselInternal _, _ => none

/-! ## Parameter values — `src/opendut-types/src/peer/configuration/parameter/value.rs`

The hasher in the source is `std::hash::DefaultHasher` (SipHash-1-3 with fixed
keys): deterministic within one build, and the source comments note the output
is not stable across Rust releases. The model below replaces SipHash by a
concrete deterministic 64-bit mixing function; the claims settled here depend
only on determinism and on *which fields* are absorbed, never on the concrete
hash values. -/

/-- One 64-bit mixing step of the modelled hasher (FNV-style; stands in for a
deterministic `Hasher::write` step, truncated to 64 bits like the source's
`u64` state). -/
def hashStep (h x : Nat) : Nat := (h * 1099511628211 + x) % (2 ^ 64)

/-- The modelled hasher's initial state (`DefaultHasher::new()` is a fixed,
key-less state within one build). -/
def defaultHasherInit : Nat := 14695981039346656037 % (2 ^ 64)

/-- Absorbing a string into the hasher, as Rust's `str::hash` does: the bytes
followed by a `0xff` terminator. Characters are absorbed by code point. -/
def hashString (h : Nat) (s : String) : Nat :=
  hashStep (s.data.foldl (fun h c => hashStep h c.toNat) h) 255

/-- Absorbing an `Option<String>` into the hasher, as the derived
`Hash for Option` does: the discriminant, then the value if present. -/
def hashOptString (h : Nat) : Option String → Nat
  | none => hashStep h 0
  | some s => hashString (hashStep h 1) s

/-- Rust `ExecutorKind` from `opendut-types` (its defining module is not under
`src/`). Modelled from the spec: an executor is either a plain `Executable` or
a `Container` whose fields include a container `name`; `parameter_identifier`
matches `Container { name, .. }`, so the model carries further container fields
(`image`, `args`) to witness that they do not enter the identifier. -/
inductive ExecutorKind where
  | Executable
  | Container (name : String) (image : String) (args : List String)
deriving DecidableEq, Repr

/-- The derived `Hash for ExecutorKind`: discriminant, then the fields.
(`parameter_identifier` only ever hashes the whole kind in the `Executable`
branch.) -/
def ExecutorKind.hashInto (h : Nat) : ExecutorKind → Nat
  | .Executable => hashStep h 0
  | .Container name image args =>
      (args.foldl hashString (hashString (hashString (hashStep h 1) name) image))

/-- Rust `ExecutorDescriptor` from `opendut-types` (its defining module is not under
`src/`). Modelled from the spec and the unit test in `value.rs`: fields `id`
(an `ExecutorId`, modelled as a `Uuid`), `kind`, and `results_url`. -/
structure ExecutorDescriptor where
  id : Uuid
  kind : ExecutorKind
  results_url : Option String
deriving DecidableEq, Repr

/-- Rust `NetworkInterfaceName` from `opendut-types` (not under `src/`). Modelled
from the spec: the bridge's interface name, read back via `.name()`. -/
structure NetworkInterfaceName where
  value : String
deriving DecidableEq, Repr

/-- The `.name()` accessor used by `EthernetBridge::parameter_identifier`. -/
def NetworkInterfaceName.name (self : NetworkInterfaceName) : String := self.value

/-- Rust `EthernetBridge` from `opendut-types` (not under `src/`). Modelled from the
spec: it is identified by its interface name. -/
structure EthernetBridge where
  name : NetworkInterfaceName
deriving DecidableEq, Repr

/-- Rust `ParameterId(Uuid)` from `opendut-types`. -/
structure ParameterId where
  uuid : Uuid
deriving DecidableEq, Repr

/-- Rust `OPENDUT_UUID_NAMESPACE` from `opendut-types` (not under `src/`). Modelled
from the spec: a fixed namespace UUID, here an arbitrary fixed 128-bit
constant. -/
def OPENDUT_UUID_NAMESPACE : Uuid := ⟨0x0de88ad7d1d44ea9b0f1a661ba5e5c65⟩

/-- Rust `u64::to_le_bytes`: the eight little-endian bytes of a 64-bit value. -/
def toLeBytes (n : Nat) : List Nat :=
  [n % 256, n / 256 % 256, n / 256 ^ 2 % 256, n / 256 ^ 3 % 256,
   n / 256 ^ 4 % 256, n / 256 ^ 5 % 256, n / 256 ^ 6 % 256, n / 256 ^ 7 % 256]

/-- Rust `Uuid::new_v5(namespace, data)` from the external `uuid` crate, modelled as
a concrete deterministic function of the namespace and the name bytes (the
SHA-1 of the real crate is not reproduced; every claim settled here depends
only on the function being deterministic). -/
def Uuid.new_v5 (ns : Uuid) (data : List Nat) : Uuid :=
  ⟨(data.foldl hashStep (hashStep defaultHasherInit ns.val)) % 2 ^ 128⟩

/-- Rust `impl ParameterValue for ExecutorDescriptor :: parameter_identifier`
(`value.rs` lines 41–57): hash the kind for `Executable`, only the container
name for `Container`, then `results_url`; finish and wrap the `u64` as a
UUIDv5 under the fixed namespace. -/
def ExecutorDescriptor.parameter_identifier (self : ExecutorDescriptor) : ParameterId :=
  let h := defaultHasherInit
  let h := match self.kind with
    | .Executable => ExecutorKind.hashInto h self.kind
    | .Container name _ _ => hashString h name
  let h := hashOptString h self.results_url
  ParameterId.mk (Uuid.new_v5 OPENDUT_UUID_NAMESPACE (toLeBytes h))

/-- Rust `impl ParameterValue for EthernetBridge :: parameter_identifier`
(`value.rs` lines 59–71): hash only `self.name.name()`, finish and wrap as a
UUIDv5 under the fixed namespace. -/
def EthernetBridge.parameter_identifier (self : EthernetBridge) : ParameterId :=
  let h := defaultHasherInit
  let h := hashString h self.name.name
  ParameterId.mk (Uuid.new_v5 OPENDUT_UUID_NAMESPACE (toLeBytes h))

/-- The kind discriminant, the stable part of `ExecutorKind` named by the
claim. -/
def ExecutorKind.discriminant : ExecutorKind → Nat
  | .Executable => 0
  | .Container _ _ _ => 1

/-- The container name when the kind is `Container`, as named by the claim. -/
def ExecutorKind.containerName : ExecutorKind → Option String
  | .Executable => none
  | .Container name _ _ => some name

/-! ## Metadata extraction — `src/opendut-carl/src/grpc/peer_messaging_broker.rs`
(lines 93–119) -/

/-- Hexadecimal digit value, as accepted by the external parsers. -/
def hexVal (c : Char) : Option Nat :=
  if '0' ≤ c ∧ c ≤ '9' then some (c.toNat - 48)
  else if 'a' ≤ c ∧ c ≤ 'f' then some (c.toNat - 87)
  else if 'A' ≤ c ∧ c ≤ 'F' then some (c.toNat - 55)
  else none

/-- Reads a run of characters as one hexadecimal number; `none` if any
character is not a hex digit. (The empty run reads as `0`; callers check
length.) -/
def hexRun (cs : List Char) : Option Nat :=
  cs.foldl (fun acc c => acc.bind fun n => (hexVal c).map fun d => n * 16 + d) (some 0)

/-- Splitting a character list on a separator character, with the semantics of
`String::split`: `n` separators yield `n + 1` (possibly empty) pieces. -/
def splitOnChar (sep : Char) : List Char → List (List Char)
  | [] => [[]]
  | c :: rest =>
    match splitOnChar sep rest with
    | [] => [[c]]
    | g :: gs => if c = sep then [] :: g :: gs else (c :: g) :: gs

/-- Rust `Uuid::parse_str` from the external `uuid` crate, modelled for its
hyphenated (8-4-4-4-12) and simple (32 hex digits) textual layouts — the
layouts the spec means by "UUID textual form". -/
def Uuid.parse_str (s : String) : Option Uuid :=
  match splitOnChar '-' s.data with
  | [a, b, c, d, e] =>
    if a.length = 8 ∧ b.length = 4 ∧ c.length = 4 ∧ d.length = 4 ∧ e.length = 12 then
      (hexRun (a ++ b ++ c ++ d ++ e)).map Uuid.mk
    else none
  | [a] => if a.length = 32 then (hexRun a).map Uuid.mk else none
  | _ => none

/-- Rust `IpAddr` from `std::net`: a parsed IPv4 or IPv6 address. -/
inductive IpAddr where
  | V4 (a b c d : Nat)
  | V6 (segs : List Nat)
deriving DecidableEq, Repr

/-- One dotted-quad octet as `std` parses it: decimal digits, no leading
zeros, value at most 255. -/
def decOctet (cs : List Char) : Option Nat :=
  if cs = [] then none
  else if ¬ cs.all Char.isDigit then none
  else if 1 < cs.length ∧ cs.head? = some '0' then none
  else
    let n := cs.foldl (fun n c => n * 10 + (c.toNat - 48)) 0
    if n ≤ 255 then some n else none

/-- Rust `Ipv4Addr::from_str` from `std`, modelled: four dot-separated octets. -/
def parseIpv4 (cs : List Char) : Option (Nat × Nat × Nat × Nat) :=
  match splitOnChar '.' cs with
  | [a, b, c, d] => do
    let a ← decOctet a
    let b ← decOctet b
    let c ← decOctet c
    let d ← decOctet d
    pure (a, b, c, d)
  | _ => none

/-- One 16-bit IPv6 segment: one to four hex digits. -/
def hexSeg (cs : List Char) : Option Nat :=
  if cs = [] ∨ 4 < cs.length then none else hexRun cs

/-- A colon-separated run of IPv6 segments; when `v4Tail` is set, the final
segment may be an embedded dotted-quad IPv4 address counting as two
segments. -/
def segsOf (v4Tail : Bool) : List (List Char) → Option (List Nat)
  | [] => some []
  | [p] =>
    if v4Tail ∧ p.contains '.' then
      (parseIpv4 p).map fun (a, b, c, d) => [a * 256 + b, c * 256 + d]
    else
      (hexSeg p).map fun n => [n]
  | p :: rest => do
    let n ← hexSeg p
    let ns ← segsOf v4Tail rest
    pure (n :: ns)

/-- Marks each non-overlapping `::` occurrence (left to right) with the
sentinel `#`, leaving single colons alone; `pending` records a `:` seen and
not yet emitted. -/
def markDoubleColon (pending : Bool) : List Char → List Char
  | [] => if pending then [':'] else []
  | c :: rest =>
    if pending then
      if c = ':' then '#' :: markDoubleColon false rest
      else ':' :: c :: markDoubleColon false rest
    else
      if c = ':' then markDoubleColon true rest
      else c :: markDoubleColon false rest

/-- Rust `Ipv6Addr::from_str` from `std`, modelled: eight segments, or fewer with a
single `::` standing for at least one zero segment; an IPv4 tail is allowed in
the last position. -/
def parseIpv6 (cs : List Char) : Option (List Nat) :=
  if cs.contains '#' then none else
  match splitOnChar '#' (markDoubleColon false cs) with
  | [whole] =>
    (segsOf true (splitOnChar ':' whole)).bind fun segs =>
      if segs.length = 8 then some segs else none
  | [l, r] =>
    let lsegs := if l = [] then some [] else segsOf false (splitOnChar ':' l)
    let rsegs := if r = [] then some [] else segsOf true (splitOnChar ':' r)
    lsegs.bind fun ls => rsegs.bind fun rs =>
      if ls.length + rs.length ≤ 7 then
        some (ls ++ List.replicate (8 - ls.length - rs.length) 0 ++ rs)
      else none
  | _ => none

/-- Rust `IpAddr::from_str` from `std`, modelled: an IPv4 literal, else an IPv6
literal. -/
def IpAddr.from_str (s : String) : Option IpAddr :=
  match parseIpv4 s.data with
  | some (a, b, c, d) => some (.V4 a b c d)
  | none => (parseIpv6 s.data).map .V6

/-- Rust `PeerId` from `opendut-types`: a UUID newtype. -/
structure PeerId where
  uuid : Uuid
deriving DecidableEq, Repr

/-- Rust `PeerId::from(Uuid)`. -/
def PeerId.from (uuid : Uuid) : PeerId := ⟨uuid⟩

/-- Rust `tonic::metadata::MetadataMap`, modelled as ordered key/byte-string
entries; `get` is a lookup by the exact (lowercase) key, as used by the
façade. -/
structure MetadataMap where
  entries : List (String × List Nat)
deriving DecidableEq, Repr

/-- Rust `MetadataMap::get`. -/
def MetadataMap.get (self : MetadataMap) (key : String) : Option (List Nat) :=
  (self.entries.find? fun e => e.1 == key).map (·.2)

/-- Rust `MetadataValue::to_str`, modelled: succeeds exactly when every byte is
visible ASCII (32–126), yielding the corresponding string. -/
def metadataToStr (bytes : List Nat) : Option String :=
  if bytes.all fun b => decide (32 ≤ b ∧ b ≤ 126) then
    some ⟨bytes.map Char.ofNat⟩
  else none

/-- Rust `type UserError = String` (`peer_messaging_broker.rs` line 119). -/
abbrev UserError := String

/-- Rust `extract_peer_id` (`peer_messaging_broker.rs` lines 93–104): get the `id`
entry, read it as a string, parse it as a UUID; each step failing with its
specific message. -/
def extract_peer_id (metadata : MetadataMap) : Except UserError PeerId :=
  match metadata.get "id" with
  | none => .error "Client should have sent an ID"
  | some bytes =>
    match metadataToStr bytes with
    | none => .error "Client ID should be a valid string"
    | some s =>
      match Uuid.parse_str s with
      | none => .error "Client ID should be a valid UUID"
      | some uuid => .ok (PeerId.from uuid)

/-- Rust `extract_remote_host` (`peer_messaging_broker.rs` lines 106–116): get the
`remote-host` entry, read it as a string, parse it as an IP address; each step
failing with its specific message. -/
def extract_remote_host (metadata : MetadataMap) : Except UserError IpAddr :=
  match metadata.get "remote-host" with
  | none => .error "Client should have sent a remote host address"
  | some bytes =>
    match metadataToStr bytes with
    | none => .error "Remote host address should be a valid string"
    | some s =>
      match IpAddr.from_str s with
      | none => .error "Remote host address should be a valid IP address"
      | some remote_host => .ok remote_host

/-! ## The façade's `open` — `peer_messaging_broker.rs` lines 40–89 -/

/-- Rust `tonic::Status` codes used by the façade. -/
inductive StatusCode where
  | invalidArgument
  | aborted
  | unavailable
  | internal
deriving DecidableEq, Repr

/-- Rust `tonic::Status`: a code with a message. -/
structure Status where
  code : StatusCode
  message : String
deriving DecidableEq, Repr

/-- Rust `Status::invalid_argument`. -/
def Status.invalid_argument (message : String) : Status := ⟨.invalidArgument, message⟩

/-- Rust `Status::aborted`. -/
def Status.aborted (message : String) : Status := ⟨.aborted, message⟩

/-- Rust `Status::unavailable`. -/
def Status.unavailable (message : String) : Status := ⟨.unavailable, message⟩

/-- Rust `Status::internal`. -/
def Status.internal (message : String) : Status := ⟨.internal, message⟩

/-- Rust `OpenError` from `crate::peer::broker` (not under `src/`). Modelled from
the spec: `PeerAlreadyConnected { peer_id }`,
`SendApplyPeerConfiguration { peer_id, cause }`, `Persistence { cause }`. -/
inductive OpenError where
  | PeerAlreadyConnected (peer_id : PeerId)
  | SendApplyPeerConfiguration (peer_id : PeerId) (cause : String)
  | Persistence (cause : Cause)
deriving DecidableEq, Repr

/-- Rust `OpenError`'s `Display` (`cause.to_string()`); the impl lives in
`crate::peer::broker`, not under `src/`. Modelled from the spec: a definite
display string per variant, mentioning its payload. -/
def OpenError.display : OpenError → String
  | .PeerAlreadyConnected peer_id =>
      "Peer <" ++ toString peer_id.uuid.val ++ "> is already connected."
  | .SendApplyPeerConfiguration peer_id cause =>
      "Could not send ApplyPeerConfiguration to peer <" ++ toString peer_id.uuid.val ++ ">: " ++ cause
  | .Persistence cause => "Error while accessing persistence: " ++ cause

/-- The `map_err` closure of the façade's `open` (`peer_messaging_broker.rs`
lines 56–60): `PeerAlreadyConnected → aborted`,
`SendApplyPeerConfiguration → unavailable`, `Persistence → internal`, each with
`cause.to_string()` as the message. -/
def mapOpenError (cause : OpenError) : Status :=
  match cause with
  | .PeerAlreadyConnected _ => Status.aborted cause.display
  | .SendApplyPeerConfiguration _ _ => Status.unavailable cause.display
  | .Persistence _ => Status.internal cause.display

/-- The façade's `open` (`peer_messaging_broker.rs` lines 40–60), up to the
inner broker call: extract the peer id, then the remote host (each failure
becoming an `invalid_argument` status without touching the broker), then call
the inner broker and map its error. The inner broker is the state-threading
function `brokerOpen` over an abstract broker state `S`, returning the
channel pair `C`; the pumps spawned on success are modelled separately by
`inboundPump`. -/
def facadeOpen {S C : Type} (brokerOpen : PeerId → IpAddr → S → Except OpenError C × S)
    (metadata : MetadataMap) (st : S) : Except Status C × S :=
  match extract_peer_id metadata with
  | .error message => (.error (Status.invalid_argument message), st)
  | .ok peer_id =>
    match extract_remote_host metadata with
    | .error message => (.error (Status.invalid_argument message), st)
    | .ok remote_host =>
      match brokerOpen peer_id remote_host st with
      | (.error cause, st2) => (.error (mapOpenError cause), st2)
      | (.ok channels, st2) => (.ok channels, st2)

/-! ## The inbound pump — `peer_messaging_broker.rs` lines 63–81 -/

/-- An upstream message (`upstream::Message`): `Ping`, or any other typed
message (collapsed to its payload). -/
inductive UpstreamMessage where
  | Ping
  | Other (payload : String)
deriving DecidableEq, Repr

/-- Rust `Upstream`: a frame whose `message` field is optional on the wire. -/
structure Upstream where
  message : Option UpstreamMessage
deriving DecidableEq, Repr

/-- One item yielded by the inbound `Streaming`: `Ok(Upstream)` or a transport
error `Err(Status)` (the status collapsed to its display). -/
inductive Frame where
  | ok (upstream : Upstream)
  | err (status : String)
deriving DecidableEq, Repr

/-- The observable outcome of running the spawned inbound pump over a finite
stream of frames: the messages sent to `tx_inbound` in order, the messages
trace-logged in order, how many empty frames were warn-logged and discarded,
the transport errors error-logged in order, and whether the task panicked
(the `unwrap()` on `tx_inbound.send` failing). -/
structure PumpResult where
  forwarded : List UpstreamMessage
  traced : List UpstreamMessage
  warnedEmpty : Nat
  errorLogged : List String
  panicked : Bool
deriving DecidableEq, Repr

/-- The spawned inbound pump (`peer_messaging_broker.rs` lines 63–81):
`while let Some(result) = inbound.next().await` over the frames. An `Ok` frame
with a message is trace-logged unless it is a `Ping`, then sent to
`tx_inbound` with `unwrap()` — when the sink's receiving side is closed
(`sinkClosed`), that `unwrap()` panics and the task dies. An `Ok` frame
without a message is warn-logged and discarded. An `Err` frame is error-logged
— and the loop continues with the next frame. -/
def inboundPump (sinkClosed : Bool) : List Frame → PumpResult
  | [] => ⟨[], [], 0, [], false⟩
  | frame :: rest =>
    match frame with
    | .ok upstream =>
      match upstream.message with
      | some message =>
        let traceHere : List UpstreamMessage := if message = .Ping then [] else [message]
        if sinkClosed then
          ⟨[], traceHere, 0, [], true⟩
        else
          let r := inboundPump sinkClosed rest
          ⟨message :: r.forwarded, traceHere ++ r.traced, r.warnedEmpty, r.errorLogged, r.panicked⟩
      | none =>
        let r := inboundPump sinkClosed rest
        ⟨r.forwarded, r.traced, r.warnedEmpty + 1, r.errorLogged, r.panicked⟩
    | .err status =>
      let r := inboundPump sinkClosed rest
      ⟨r.forwarded, r.traced, r.warnedEmpty, status :: r.errorLogged, r.panicked⟩

/-- The messages carried by the `Ok` frames of a stream, in order. -/
def messagesOf (frames : List Frame) : List UpstreamMessage :=
  frames.filterMap fun frame =>
    match frame with
    | .ok upstream => upstream.message
    | .err _ => none

/-- The transport errors of a stream, in order. -/
def errorsOf (frames : List Frame) : List String :=
  frames.filterMap fun frame =>
    match frame with
    | .ok _ => none
    | .err status => some status

/-- The number of `Ok` frames of a stream carrying no message. -/
def emptyCountOf (frames : List Frame) : Nat :=
  frames.countP fun frame =>
    match frame with
    | .ok upstream => upstream.message.isNone
    | .err _ => false

/-- Whether a frame is an `Ok` frame carrying a message. -/
def Frame.carriesMessage : Frame → Bool
  | .ok upstream => upstream.message.isSome
  | .err _ => false

/-! ## Configuration loading — `src/opendut-util/src/settings.rs` lines 51–110 -/

/-- A configuration source, modelled as its parsed key/value pairs
(`config::Config` / a parsed file / the collected environment variables). -/
abbrev ConfigDoc := List (String × String)

/-- The world `load_config` runs in: development mode
(`project::is_running_in_development`, not under `src/`, modelled from the
spec as a flag), `project::make_path_absolute(..).ok()` (not under `src/`,
modelled as a resolver), the `XDG_CONFIG_HOME` variable, `home::home_dir()`,
the filesystem (a path that `exists() && is_file()` maps to its parsed
contents), and the raw process environment. -/
structure SettingsEnv where
  is_running_in_development : Bool
  make_path_absolute : String → Option String
  xdg_config_home : Option String
  home_dir : Option String
  fileContents : String → Option ConfigDoc
  rawEnv : List (String × String)

/-- Rust `str::to_uppercase`, modelled characterwise. -/
def strToUpper (s : String) : String := ⟨s.data.map Char.toUpper⟩

/-- Rust `config::Environment::with_prefix(format!("OPENDUT_{}", name.to_uppercase()))
.separator("_")`: keep the variables carrying the prefix, strip it, and turn
the remaining `_`-separated segments into a lowercase dotted key. -/
def envSource (rawEnv : List (String × String)) (name : String) : ConfigDoc :=
  let pfx := ("OPENDUT_" ++ strToUpper name ++ "_").data
  rawEnv.filterMap fun kv =>
    if pfx.isPrefixOf kv.1.data then
      some (⟨(kv.1.data.drop pfx.length).map fun c =>
        if c = '_' then '.' else c.toLower⟩, kv.2)
    else none

/-- What the model of `load_config` returns: the ordered list of composed
sources (lowest precedence first, as handed to `Config::builder()`), and the
`config_files_used` / `config_files_declared` paths. -/
structure LoadedConfig where
  sources : List ConfigDoc
  config_files_used : List String
  config_files_declared : List String
deriving DecidableEq, Repr

/-- Rust `build()` on the composed sources: the effective value of a key is the one
from the last (highest-precedence) source that defines it. -/
def configLookup (sources : List ConfigDoc) (key : String) : Option String :=
  sources.foldl
    (fun acc doc =>
      match doc.find? fun kv => kv.1 == key with
      | some kv => some kv.2
      | none => acc)
    none

/-- Rust `load_config` (`settings.rs` lines 51–110): compose, in order, the
embedded `defaults` document, the development file (development mode only),
the system file `/etc/opendut/{name}.toml`, the user file
`$XDG_CONFIG_HOME/opendut/{name}/config.toml` (falling back to
`~/.config/opendut/{name}/config.toml`), the `OPENDUT_{NAME}_`-prefixed
environment, and the programmatic `overrides`. Files are only added when they
exist (`sources_used`). The secret-redacted twin build adds
`secret_redacted_overrides` on top and is omitted here. -/
def load_config (env : SettingsEnv) (name : String) (defaults : ConfigDoc)
    (overrides : ConfigDoc) : LoadedConfig :=
  let development_config := "opendut-" ++ name ++ "/" ++ name ++ "-development.toml"
  let system_config := "/etc/opendut/" ++ name ++ ".toml"
  let user_config := "opendut/" ++ name ++ "/config.toml"
  let config_files : List (Option String) :=
    (if env.is_running_in_development then [env.make_path_absolute development_config] else [])
    ++ [some system_config]
    ++ [match env.xdg_config_home with
        | some xdg_config_home => some (xdg_config_home ++ "/" ++ user_config)
        | none => env.home_dir.map fun path => path ++ "/.config/" ++ user_config]
  let declared := config_files.filterMap id
  let used := declared.filter fun path => (env.fileContents path).isSome
  let sources :=
    [defaults]
    ++ used.filterMap env.fileContents
    ++ [envSource env.rawEnv name]
    ++ [overrides]
  ⟨sources, used, declared⟩

/-! ## Theorems -/

/-- Helper: with an open sink, the pump forwards exactly the carried messages
in order, traces all but `Ping`, warn-counts the empty frames, error-logs the
transport errors, and never panicks. -/
theorem inboundPump_false_eq (fs : List Frame) :
    inboundPump false fs =
      ⟨messagesOf fs, (messagesOf fs).filter (fun m => !(m == UpstreamMessage.Ping)),
       emptyCountOf fs, errorsOf fs, false⟩ := by
  induction fs with
  | nil => rfl
  | cons f rest ih =>
    cases f with
    | ok u =>
      cases h : u.message with
      | none =>
        simp [inboundPump, ih, messagesOf, emptyCountOf, errorsOf, h,
          List.filterMap_cons, List.countP_cons]
      | some m =>
        by_cases hp : m = UpstreamMessage.Ping <;>
          simp [inboundPump, ih, messagesOf, emptyCountOf, errorsOf, h, hp,
            List.filterMap_cons, List.countP_cons]
    | err s =>
      simp [inboundPump, ih, messagesOf, emptyCountOf, errorsOf,
        List.filterMap_cons, List.countP_cons]

/-- Helper: `messagesOf` distributes over append. -/
theorem messagesOf_append (xs ys : List Frame) :
    messagesOf (xs ++ ys) = messagesOf xs ++ messagesOf ys := by
  simp [messagesOf, List.filterMap_append]

/-- Helper: `errorsOf` distributes over append. -/
theorem errorsOf_append (xs ys : List Frame) :
    errorsOf (xs ++ ys) = errorsOf xs ++ errorsOf ys := by
  simp [errorsOf, List.filterMap_append]

/-- C1 (counterexample): with an open sink, after a transport error frame the
pump still forwards the message of the following frame — it does not stop
reading, contradicting the claim that no further frames are forwarded to the
inbound sink after a transport error. -/
theorem inboundPump_forwards_after_transport_error_cex :
    (inboundPump false
      [Frame.err "transport failure", Frame.ok ⟨some (UpstreamMessage.Other "m")⟩]).forwarded
      = [UpstreamMessage.Other "m"] ∧
    [UpstreamMessage.Other "m"] ≠ ([] : List UpstreamMessage) := by
  exact ⟨by decide, by decide⟩

/-- C1 (amended): a transport error on the inbound stream is error-logged and
the pump continues: the frames before and after the error are processed
exactly as without it — their messages are all forwarded to the inbound sink —
and the pump does not panic; the session is not transitioned anywhere by the
error. -/
theorem inboundPump_transport_error_logged_and_continues
    (pre : List Frame) (s : String) (post : List Frame) :
    (inboundPump false (pre ++ Frame.err s :: post)).forwarded
        = messagesOf pre ++ messagesOf post ∧
    (inboundPump false (pre ++ Frame.err s :: post)).errorLogged
        = errorsOf pre ++ s :: errorsOf post ∧
    (inboundPump false (pre ++ Frame.err s :: post)).panicked = false := by
  refine ⟨?_, ?_, ?_⟩ <;>
    simp [inboundPump_false_eq, messagesOf_append, errorsOf_append, messagesOf, errorsOf,
      List.filterMap_cons]

/-- C3 (confirmed): with an open sink, every upstream frame carrying a message
has that message forwarded to the inbound sink in order (`Ping` included);
`Ping` is omitted from trace logging; every frame without a message is
warn-logged and discarded; and the pump never terminates the session over
these frames (no panic). -/
theorem inboundPump_forwards_messages (fs : List Frame) :
    (inboundPump false fs).forwarded = messagesOf fs ∧
    (inboundPump false fs).traced
        = (messagesOf fs).filter (fun m => !(m == UpstreamMessage.Ping)) ∧
    (inboundPump false fs).warnedEmpty = emptyCountOf fs ∧
    (inboundPump false fs).panicked = false := by
  simp [inboundPump_false_eq]

/-- C10 (confirmed): with the inbound sink's receiving side closed, the pump
task panicks exactly when some upstream frame carries a message — the
`unwrap()` on `tx_inbound.send` fails — rather than ending the session
gracefully. -/
theorem inboundPump_closed_sink_panicks (fs : List Frame) :
    (inboundPump true fs).panicked = fs.any Frame.carriesMessage := by
  induction fs with
  | nil => rfl
  | cons f rest ih =>
    cases f with
    | ok u =>
      cases h : u.message with
      | none => simp [inboundPump, ih, Frame.carriesMessage, h]
      | some m => simp [inboundPump, Frame.carriesMessage, h]
    | err s => simp [inboundPump, ih, Frame.carriesMessage]

/-- C2 (counterexample): on the `DieselInternal` variant, `context` runs
`unimplemented!()` and panics (modelled as `none`) instead of returning an
error with accumulated context messages — so the claim does not hold for
"either variant". -/
theorem context_diesel_internal_panicks_cex :
    (PersistenceError.DieselInternal "database connection lost").context "a" = none := by
  exact rfl

/-- C2 (amended): for every `Custom`-variant `PersistenceError`,
`e.context(a).context(b)` returns a `Custom` error with all previously
accumulated context messages preserved and `a` then `b` appended last (so `a`
stands before `b`, outermost last); on the `DieselInternal` variant `context`
panics (`unimplemented!()`). -/
theorem context_accumulates_in_order (resource_name : String)
    (operation : PersistenceOperation) (context_messages : List String)
    (id : Option Uuid) (source : Option Cause) (a b : String) :
    ((PersistenceError.Custom resource_name operation context_messages id source).context a).bind
        (fun e => e.context b)
      = some (.Custom resource_name operation (context_messages ++ [a, b]) id source) := by
  simp [PersistenceError.context]

/-- C8 (confirmed): `insert`/`remove`/`get` build a `Custom` error with
operation `Insert`/`Remove`/`Get` and `id = Some(id)`; `list` builds a
`Custom` error with operation `List` and `id = None`; in all four cases the
resource name is the type's name, the context messages start empty, and the
cause is stored as the source unchanged. -/
theorem persistence_error_constructors (resource_name : String) (id : Uuid) (cause : Cause) :
    PersistenceError.insert resource_name id cause
        = .Custom resource_name .Insert [] (some id) (some cause) ∧
    PersistenceError.remove resource_name id cause
        = .Custom resource_name .Remove [] (some id) (some cause) ∧
    PersistenceError.get resource_name id cause
        = .Custom resource_name .Get [] (some id) (some cause) ∧
    PersistenceError.list resource_name cause
        = .Custom resource_name .List [] none (some cause) := by
  exact ⟨rfl, rfl, rfl, rfl⟩

/-- C4 (confirmed): `parameter_identifier` is a pure function of the stable
subset: two `ExecutorDescriptor`s agreeing on the kind discriminant, the
container name (when the kind is `Container`) and the results URL get equal
`ParameterId`s (other fields do not influence the result); two
`EthernetBridge`s agreeing on the interface name get equal `ParameterId`s; and
every identifier is the UUIDv5, under the fixed namespace, of the absorbed
stable subset's 64-bit hash. -/
theorem parameter_identifier_stable :
    (∀ e1 e2 : ExecutorDescriptor,
        e1.kind.discriminant = e2.kind.discriminant →
        e1.kind.containerName = e2.kind.containerName →
        e1.results_url = e2.results_url →
        e1.parameter_identifier = e2.parameter_identifier) ∧
    (∀ b1 b2 : EthernetBridge,
        b1.name.name = b2.name.name →
        b1.parameter_identifier = b2.parameter_identifier) ∧
    (∀ e : ExecutorDescriptor, ∃ h : Nat,
        e.parameter_identifier
          = ParameterId.mk (Uuid.new_v5 OPENDUT_UUID_NAMESPACE (toLeBytes h))) ∧
    (∀ b : EthernetBridge, ∃ h : Nat,
        b.parameter_identifier
          = ParameterId.mk (Uuid.new_v5 OPENDUT_UUID_NAMESPACE (toLeBytes h))) := by
  refine ⟨?_, ?_, ?_, ?_⟩
  · rintro ⟨id1, k1, u1⟩ ⟨id2, k2, u2⟩ h1 h2 h3
    dsimp at h3
    subst h3
    cases k1 <;> cases k2 <;>
      simp_all [ExecutorKind.discriminant, ExecutorKind.containerName,
        ExecutorDescriptor.parameter_identifier]
  · rintro ⟨⟨n1⟩⟩ ⟨⟨n2⟩⟩ h
    simp_all [NetworkInterfaceName.name, EthernetBridge.parameter_identifier]
  · intro e
    exact ⟨_, rfl⟩
  · intro b
    exact ⟨_, rfl⟩

/-- Witness for C4 at concrete inputs: two containers sharing name and results
URL but differing in id, image and args get the same identifier, and likewise
two bridges sharing the interface name. -/
theorem parameter_identifier_stable_witness :
    (ExecutorDescriptor.mk ⟨1⟩ (.Container "web" "imageA" []) (some "https://results")).parameter_identifier
        = (ExecutorDescriptor.mk ⟨2⟩ (.Container "web" "imageB" ["--x"]) (some "https://results")).parameter_identifier ∧
    (EthernetBridge.mk ⟨"br-opendut"⟩).parameter_identifier
        = (EthernetBridge.mk ⟨"br-opendut"⟩).parameter_identifier := by
  exact ⟨parameter_identifier_stable.1 _ _ (by decide) (by decide) (by decide),
         parameter_identifier_stable.2.1 _ _ (by decide)⟩

/-- The byte string of an ASCII metadata value. -/
def bytesOfStr (s : String) : List Nat := s.data.map Char.toNat

/-- Sample metadata with a well-formed `id` and `remote-host`. -/
def sampleGoodMetadata : MetadataMap :=
  ⟨[("id", bytesOfStr "11111111-1111-1111-1111-111111111111"),
    ("remote-host", bytesOfStr "10.0.0.1")]⟩

/-- Sample metadata whose `id` is not a UUID. -/
def sampleBadMetadata : MetadataMap :=
  ⟨[("id", bytesOfStr "not-a-uuid"),
    ("remote-host", bytesOfStr "10.0.0.1")]⟩

/-- C5 (confirmed): the façade maps the inner broker's `OpenError` to the
client-facing status exactly as `PeerAlreadyConnected → Aborted`,
`SendApplyPeerConfiguration → Unavailable`, `Persistence → Internal`, each
carrying the error's display string as the message; and whenever the inner
broker fails, `open` returns exactly that mapped status. -/
theorem open_error_status_mapping :
    (∀ peer_id, mapOpenError (.PeerAlreadyConnected peer_id)
        = Status.aborted (OpenError.PeerAlreadyConnected peer_id).display) ∧
    (∀ peer_id cause, mapOpenError (.SendApplyPeerConfiguration peer_id cause)
        = Status.unavailable (OpenError.SendApplyPeerConfiguration peer_id cause).display) ∧
    (∀ cause, mapOpenError (.Persistence cause)
        = Status.internal (OpenError.Persistence cause).display) ∧
    (∀ (S C : Type) (brokerOpen : PeerId → IpAddr → S → Except OpenError C × S)
        (metadata : MetadataMap) (st st2 : S) (peer_id : PeerId) (remote_host : IpAddr)
        (cause : OpenError),
        extract_peer_id metadata = .ok peer_id →
        extract_remote_host metadata = .ok remote_host →
        brokerOpen peer_id remote_host st = (.error cause, st2) →
        facadeOpen brokerOpen metadata st = (.error (mapOpenError cause), st2)) := by
  refine ⟨fun _ => rfl, fun _ _ => rfl, fun _ => rfl, ?_⟩
  intro S C brokerOpen metadata st st2 peer_id remote_host cause h1 h2 h3
  simp [facadeOpen, h1, h2, h3]

/-- Witness for C5 at a concrete input: a broker failing with `Persistence`
makes `open` return `Internal` with the error's display string. -/
theorem open_error_status_mapping_witness :
    facadeOpen (fun (_ : PeerId) (_ : IpAddr) (s : Nat) =>
        ((Except.error (OpenError.Persistence "db down") : Except OpenError Nat), s))
      sampleGoodMetadata 0
      = (Except.error (Status.internal (OpenError.Persistence "db down").display), 0) :=
  open_error_status_mapping.2.2.2 Nat Nat _ sampleGoodMetadata 0 0
    ⟨⟨0x11111111111111111111111111111111⟩⟩ (.V4 10 0 0 1) (.Persistence "db down")
    (by decide) (by decide) rfl

/-- C6 (confirmed): `extract_peer_id` succeeds exactly when the metadata has
an `id` entry that is a valid string parsing as a UUID, and
`extract_remote_host` succeeds exactly when it has a `remote-host` entry that
is a valid string parsing as an IP literal; every failure carries one of the
specific textual reasons, and `open` surfaces such a failure as an
`InvalidArgument` status bearing that reason. -/
theorem extract_metadata_spec (metadata : MetadataMap) :
    (∀ p : PeerId, extract_peer_id metadata = .ok p ↔
        ∃ bytes s, metadata.get "id" = some bytes ∧ metadataToStr bytes = some s ∧
          Uuid.parse_str s = some p.uuid) ∧
    (∀ host : IpAddr, extract_remote_host metadata = .ok host ↔
        ∃ bytes s, metadata.get "remote-host" = some bytes ∧ metadataToStr bytes = some s ∧
          IpAddr.from_str s = some host) ∧
    (∀ msg, extract_peer_id metadata = .error msg →
        (msg = "Client should have sent an ID" ∨ msg = "Client ID should be a valid string" ∨
         msg = "Client ID should be a valid UUID") ∧
        ∀ (S C : Type) (brokerOpen : PeerId → IpAddr → S → Except OpenError C × S) (st : S),
          facadeOpen brokerOpen metadata st = (.error (Status.invalid_argument msg), st)) ∧
    (∀ msg, extract_remote_host metadata = .error msg →
        msg = "Client should have sent a remote host address" ∨
        msg = "Remote host address should be a valid string" ∨
        msg = "Remote host address should be a valid IP address") := by
  refine ⟨?_, ?_, ?_, ?_⟩
  · intro p
    obtain ⟨pu⟩ := p
    unfold extract_peer_id
    cases hg : metadata.get "id" with
    | none => simp [hg]
    | some bytes =>
      cases hs : metadataToStr bytes with
      | none => simp [hg, hs]
      | some s =>
        cases hu : Uuid.parse_str s with
        | none => simp [hg, hs, hu]
        | some uuid => simp [hg, hs, hu, PeerId.from, PeerId.mk.injEq, eq_comm]
  · intro host
    unfold extract_remote_host
    cases hg : metadata.get "remote-host" with
    | none => simp [hg]
    | some bytes =>
      cases hs : metadataToStr bytes with
      | none => simp [hg, hs]
      | some s =>
        cases hu : IpAddr.from_str s with
        | none => simp [hg, hs, hu]
        | some addr => simp [hg, hs, hu, eq_comm]
  · intro msg herr
    constructor
    · unfold extract_peer_id at herr
      cases hg : metadata.get "id" with
      | none => simp [hg] at herr; simp [herr]
      | some bytes =>
        cases hs : metadataToStr bytes with
        | none => simp [hg, hs] at herr; simp [herr]
        | some s =>
          cases hu : Uuid.parse_str s with
          | none => simp [hg, hs, hu] at herr; simp [herr]
          | some uuid => simp [hg, hs, hu] at herr
    · intro S C brokerOpen st
      simp [facadeOpen, herr]
  · intro msg herr
    unfold extract_remote_host at herr
    cases hg : metadata.get "remote-host" with
    | none => simp [hg] at herr; simp [herr]
    | some bytes =>
      cases hs : metadataToStr bytes with
      | none => simp [hg, hs] at herr; simp [herr]
      | some s =>
        cases hu : IpAddr.from_str s with
        | none => simp [hg, hs, hu] at herr; simp [herr]
        | some addr => simp [hg, hs, hu] at herr

/-- Witness for C6 at concrete inputs: well-formed metadata extracts the
expected peer id and address. -/
theorem extract_metadata_spec_witness :
    extract_peer_id sampleGoodMetadata = .ok ⟨⟨0x11111111111111111111111111111111⟩⟩ ∧
    extract_remote_host sampleGoodMetadata = .ok (.V4 10 0 0 1) := by
  constructor
  · exact ((extract_metadata_spec sampleGoodMetadata).1 _).mpr
      ⟨bytesOfStr "11111111-1111-1111-1111-111111111111",
       "11111111-1111-1111-1111-111111111111", by decide, by decide, by decide⟩
  · exact ((extract_metadata_spec sampleGoodMetadata).2.1 _).mpr
      ⟨bytesOfStr "10.0.0.1", "10.0.0.1", by decide, by decide, by decide⟩

/-- C7 (confirmed): when metadata parsing fails, `open` returns the
`InvalidArgument` status before invoking the inner broker: the broker state is
returned unchanged and the result does not depend on the inner broker at
all. -/
theorem open_bad_metadata_no_side_effects {S C : Type}
    (brokerOpen brokerOpen2 : PeerId → IpAddr → S → Except OpenError C × S)
    (metadata : MetadataMap) (st : S) (msg : UserError) :
    (extract_peer_id metadata = .error msg →
        facadeOpen brokerOpen metadata st = (.error (Status.invalid_argument msg), st) ∧
        facadeOpen brokerOpen metadata st = facadeOpen brokerOpen2 metadata st) ∧
    ((∃ p, extract_peer_id metadata = .ok p) →
        extract_remote_host metadata = .error msg →
        facadeOpen brokerOpen metadata st = (.error (Status.invalid_argument msg), st) ∧
        facadeOpen brokerOpen metadata st = facadeOpen brokerOpen2 metadata st) := by
  constructor
  · intro herr
    constructor <;> simp [facadeOpen, herr]
  · rintro ⟨p, hok⟩ herr
    constructor <;> simp [facadeOpen, hok, herr]

/-- Witness for C7 at a concrete input: metadata with `id = "not-a-uuid"`
makes `open` return `InvalidArgument` and leave the broker state untouched,
for two observably different inner brokers. -/
theorem open_bad_metadata_no_side_effects_witness :
    facadeOpen (fun (_ : PeerId) (_ : IpAddr) (s : Nat) => ((Except.ok 7 : Except OpenError Nat), s + 1))
        sampleBadMetadata 0
      = (.error (Status.invalid_argument "Client ID should be a valid UUID"), 0) ∧
    facadeOpen (fun (_ : PeerId) (_ : IpAddr) (s : Nat) => ((Except.ok 7 : Except OpenError Nat), s + 1))
        sampleBadMetadata 0
      = facadeOpen (fun (_ : PeerId) (_ : IpAddr) (s : Nat) =>
          ((Except.error (OpenError.Persistence "x") : Except OpenError Nat), s)) sampleBadMetadata 0 :=
  (open_bad_metadata_no_side_effects _ _ sampleBadMetadata 0
    "Client ID should be a valid UUID").1 (by decide)

/-- Helper: folding the remaining sources changes nothing when none of them
defines the key. -/
theorem configLookup_fold_none (post : List ConfigDoc) (key : String) (acc : Option String)
    (h : ∀ d ∈ post, d.find? (fun e => e.1 == key) = none) :
    post.foldl
        (fun acc doc =>
          match doc.find? fun kv => kv.1 == key with
          | some kv => some kv.2
          | none => acc)
        acc = acc := by
  induction post generalizing acc with
  | nil => rfl
  | cons d rest ih =>
    have hd := h d (by simp)
    rw [List.foldl_cons, hd]
    exact ih acc fun d hmem => h d (by simp [hmem])

/-- Helper: the effective value of a key comes from the last source that
defines it. -/
theorem configLookup_last_wins (pre : List ConfigDoc) (doc : ConfigDoc)
    (post : List ConfigDoc) (key : String) (kv : String × String)
    (hdoc : doc.find? (fun e => e.1 == key) = some kv)
    (hpost : ∀ d ∈ post, d.find? (fun e => e.1 == key) = none) :
    configLookup (pre ++ doc :: post) key = some kv.2 := by
  unfold configLookup
  rw [List.foldl_append, List.foldl_cons, hdoc]
  exact configLookup_fold_none post key _ hpost

/-- C9 (confirmed): `load_config` declares, in order, the development file
(only in development mode), the system file `/etc/opendut/{name}.toml`, and
the user file `$XDG_CONFIG_HOME/opendut/{name}/config.toml` (falling back to
`~/.config/opendut/{name}/config.toml`); it composes the embedded defaults
first, then the declared files that exist, then the `OPENDUT_{NAME}_`
environment, then the programmatic overrides; and for every key the value of
the last (highest-precedence) source defining it overrides all earlier
ones. -/
theorem load_config_source_order (env : SettingsEnv) (name : String)
    (defaults overrides : ConfigDoc) :
    ((load_config env name defaults overrides).config_files_declared =
        ((if env.is_running_in_development then
            [env.make_path_absolute ("opendut-" ++ name ++ "/" ++ name ++ "-development.toml")]
          else [])
          ++ [some ("/etc/opendut/" ++ name ++ ".toml")]
          ++ [match env.xdg_config_home with
              | some xdg_config_home =>
                  some (xdg_config_home ++ "/" ++ ("opendut/" ++ name ++ "/config.toml"))
              | none =>
                  env.home_dir.map fun path =>
                    path ++ "/.config/" ++ ("opendut/" ++ name ++ "/config.toml")]).filterMap id) ∧
    ((load_config env name defaults overrides).config_files_used =
        (load_config env name defaults overrides).config_files_declared.filter
          fun path => (env.fileContents path).isSome) ∧
    ((load_config env name defaults overrides).sources =
        [defaults]
        ++ (load_config env name defaults overrides).config_files_used.filterMap env.fileContents
        ++ [envSource env.rawEnv name, overrides]) ∧
    (∀ (key : String) (kv : String × String) (pre post : List ConfigDoc) (doc : ConfigDoc),
        (load_config env name defaults overrides).sources = pre ++ doc :: post →
        doc.find? (fun e => e.1 == key) = some kv →
        (∀ d ∈ post, d.find? (fun e => e.1 == key) = none) →
        configLookup (load_config env name defaults overrides).sources key = some kv.2) := by
  refine ⟨rfl, rfl, by simp [load_config], ?_⟩
  intro key kv pre post doc hsrc hdoc hpost
  rw [hsrc]
  exact configLookup_last_wins pre doc post key kv hdoc hpost

/-- A concrete loading environment: development mode with no development file
present, an existing system file, `XDG_CONFIG_HOME` set with an existing user
file, and one matching environment variable. -/
def sampleSettingsEnv : SettingsEnv :=
  ⟨true,
   fun path => some ("/abs/" ++ path),
   some "/xdg",
   some "/home/u",
   fun path =>
     if path = "/etc/opendut/carl.toml" then some [("k", "sys")]
     else if path = "/xdg/opendut/carl/config.toml" then some [("k", "usr")]
     else none,
   [("OPENDUT_CARL_LOG", "debug")]⟩

/-- Witness for C9 at a concrete input: the composed sources appear in the
documented order and the user file's value overrides the system file's and the
defaults for the same key. -/
theorem load_config_source_order_witness :
    (load_config sampleSettingsEnv "carl" [("k", "default")] []).sources
        = [[("k", "default")], [("k", "sys")], [("k", "usr")], [("log", "debug")], []] ∧
    configLookup (load_config sampleSettingsEnv "carl" [("k", "default")] []).sources "k"
        = some "usr" := by
  refine ⟨by decide, ?_⟩
  exact (load_config_source_order sampleSettingsEnv "carl" [("k", "default")] []).2.2.2
    "k" ("k", "usr") [[("k", "default")], [("k", "sys")]] [[("log", "debug")], []]
    [("k", "usr")] (by decide) (by decide) (by decide)

end Opendut
